import Mathlib

/-!
Verification of the QuickClip icon generator (`generate_icon.py`) against its
natural-language specification.

Modelling conventions:
* Python floats are modelled exactly as rationals (`ℚ`); the decimal literals
  of the source (`0.65`, `0.20`, ...) appear as the corresponding fractions.
* `int(...)` truncation is modelled as `Nat.floor`; every quantity it is
  applied to in this program is nonnegative, so truncation toward zero and
  floor agree (this nonnegativity is discharged where it matters).
* An image is a width, a height, and a total pixel function; drawing
  operations overwrite pixels in a region, exactly as Pillow's `ImageDraw`
  primitives do on an RGBA image (no blending).
* Pillow's `rounded_rectangle` decomposes into two axis-aligned rectangles
  plus four quarter-ellipse corners; a filled circle of radius `r` centred at
  `c` is taken to contain exactly the pixels at distance at most `r` from `c`.
  Box coordinates are inclusive on both ends, as in Pillow.
* An outline of width `w` on a rounded rectangle covers the ring between the
  rounded rectangle and the copy of it inset by `w` (Pillow draws the outline
  inward from the boundary).
-/

namespace QuickClip

/-- An RGBA colour, one byte per channel. -/
structure Color where
  r : ℕ
  g : ℕ
  b : ℕ
  a : ℕ
deriving DecidableEq

/-- A raster image: pixel dimensions plus a total pixel function.
`Image.new('RGBA', (size, size))` yields a square image. -/
structure Image where
  width : ℕ
  height : ℕ
  pix : ℕ → ℕ → Color

/-- `Image.new('RGBA', (S, S), (0, 0, 0, 0))`: transparent square canvas. -/
def newImage (S : ℕ) : Image :=
  { width := S, height := S, pix := fun _ _ => ⟨0, 0, 0, 0⟩ }

/-- Python `int(...)` on the nonnegative rationals appearing in this program
(truncation toward zero = floor on nonnegative values). -/
def pyint (q : ℚ) : ℕ := ⌊q⌋₊

/-- `scale = size / 512` (line 23 of the source). -/
def scaleQ (S : ℕ) : ℚ := (S : ℚ) / 512

/-- `clipboard_size = int(size * 0.65)` (line 43). -/
def clipboardSize (S : ℕ) : ℕ := pyint ((S : ℚ) * (65 / 100))

/-- `clipboard_x = (size - clipboard_size) // 2` (line 44). -/
def clipboardX (S : ℕ) : ℕ := (S - clipboardSize S) / 2

/-- `clipboard_y = int(size * 0.20)` (line 45). -/
def clipboardY (S : ℕ) : ℕ := pyint ((S : ℚ) * (20 / 100))

/-- `clip_width = int(clipboard_size * 0.35)` (line 48). -/
def clipWidth (S : ℕ) : ℕ := pyint ((clipboardSize S : ℚ) * (35 / 100))

/-- `clip_height = int(clipboard_size * 0.12)` (line 49). -/
def clipHeight (S : ℕ) : ℕ := pyint ((clipboardSize S : ℚ) * (12 / 100))

/-- `clip_x = clipboard_x + (clipboard_size - clip_width) // 2` (line 50). -/
def clipX (S : ℕ) : ℕ := clipboardX S + (clipboardSize S - clipWidth S) / 2

/-- `clip_y = clipboard_y - int(clip_height * 0.3)` (line 51).  The subtrahend
never exceeds `clipboard_y` (see `clipY_pos`), so ℕ subtraction is faithful. -/
def clipY (S : ℕ) : ℕ := clipboardY S - pyint ((clipHeight S : ℚ) * (30 / 100))

/-- Corner radius of the clip fastener: `int(clip_height * 0.4)` (line 55). -/
def clipRadius (S : ℕ) : ℕ := pyint ((clipHeight S : ℚ) * (40 / 100))

/-- Clip fastener outline width: `max(1, int(scale * 1.5))` (line 58). -/
def clipOutlineWidth (S : ℕ) : ℕ := max 1 (pyint (scaleQ S * (15 / 10)))

/-- Clip fastener outline colour `(180, 180, 180, 255)` (line 57). -/
def clipOutlineColor : Color := ⟨180, 180, 180, 255⟩

/-- Clipboard body corner radius: `int(clipboard_size * 0.10)` (line 64). -/
def bodyRadius (S : ℕ) : ℕ := pyint ((clipboardSize S : ℚ) * (10 / 100))

/-- Clipboard body outline width: `max(2, int(scale * 3))` (line 67). -/
def bodyOutlineWidth (S : ℕ) : ℕ := max 2 (pyint (scaleQ S * 3))

/-- `line_padding = int(clipboard_size * 0.20)` (line 71). -/
def linePadding (S : ℕ) : ℕ := pyint ((clipboardSize S : ℚ) * (20 / 100))

/-- `line_y_start = clipboard_y + int(clipboard_size * 0.25)` (line 72). -/
def lineYStart (S : ℕ) : ℕ := clipboardY S + pyint ((clipboardSize S : ℚ) * (25 / 100))

/-- `line_spacing = int(clipboard_size * 0.18)` (line 73). -/
def lineSpacing (S : ℕ) : ℕ := pyint ((clipboardSize S : ℚ) * (18 / 100))

/-- `line_width = max(2, int(scale * 5))` (line 74). -/
def lineWidth (S : ℕ) : ℕ := max 2 (pyint (scaleQ S * 5))

/-- Mask corner radius: `corner_radius = int(size * 0.18)` (line 34). -/
def cornerRadius (S : ℕ) : ℕ := pyint ((S : ℚ) * (18 / 100))

/-- Right x-coordinate of code line 1: `clipboard_x + clipboard_size - line_padding`
(line 79). -/
def lineRightX1 (S : ℕ) : ℚ := (clipboardX S : ℚ) + clipboardSize S - linePadding S

/-- Right x-coordinate of code line 2:
`clipboard_x + clipboard_size - line_padding * 2` (line 87). -/
def lineRightX2 (S : ℕ) : ℚ := (clipboardX S : ℚ) + clipboardSize S - 2 * linePadding S

/-- Right x-coordinate of code line 3:
`clipboard_x + clipboard_size - line_padding * 2.5` (line 95). -/
def lineRightX3 (S : ℕ) : ℚ :=
  (clipboardX S : ℚ) + clipboardSize S - (25 / 10) * linePadding S

/-- Left x-coordinate of every code line: `clipboard_x + line_padding`. -/
def lineLeftX (S : ℕ) : ℚ := (clipboardX S : ℚ) + linePadding S

/-- Distance from the clipboard's right edge to code line 1's right edge. -/
def lineRightInset1 (S : ℕ) : ℚ := ((clipboardX S : ℚ) + clipboardSize S) - lineRightX1 S

/-- Distance from the clipboard's right edge to code line 2's right edge. -/
def lineRightInset2 (S : ℕ) : ℚ := ((clipboardX S : ℚ) + clipboardSize S) - lineRightX2 S

/-- Distance from the clipboard's right edge to code line 3's right edge. -/
def lineRightInset3 (S : ℕ) : ℚ := ((clipboardX S : ℚ) + clipboardSize S) - lineRightX3 S

/-- Distance from the clipboard's left edge to each code line's left edge. -/
def lineLeftInset (S : ℕ) : ℚ := lineLeftX S - (clipboardX S : ℚ)

/-- Membership of point `(px, py)` in the fill of Pillow's
`rounded_rectangle([x0, y0, x1, y1], radius=rad)`: the two central rectangles
plus the four quarter-disc corners (disc membership by squared distance). -/
def inRR (x0 y0 x1 y1 rad px py : ℚ) : Prop :=
  (x0 + rad ≤ px ∧ px ≤ x1 - rad ∧ y0 ≤ py ∧ py ≤ y1) ∨
  (x0 ≤ px ∧ px ≤ x1 ∧ y0 + rad ≤ py ∧ py ≤ y1 - rad) ∨
  (px - (x0 + rad)) ^ 2 + (py - (y0 + rad)) ^ 2 ≤ rad ^ 2 ∨
  (px - (x1 - rad)) ^ 2 + (py - (y0 + rad)) ^ 2 ≤ rad ^ 2 ∨
  (px - (x0 + rad)) ^ 2 + (py - (y1 - rad)) ^ 2 ≤ rad ^ 2 ∨
  (px - (x1 - rad)) ^ 2 + (py - (y1 - rad)) ^ 2 ≤ rad ^ 2

instance (x0 y0 x1 y1 rad px py : ℚ) : Decidable (inRR x0 y0 x1 y1 rad px py) := by
  unfold inRR
  infer_instance

/-- `draw.rectangle([x0, y0, x1, y1], fill=c)`: overwrite every pixel of the
inclusive box with `c`. -/
def fillRect (img : Image) (x0 y0 x1 y1 : ℚ) (c : Color) : Image :=
  { img with
    pix := fun px py =>
      if x0 ≤ (px : ℚ) ∧ (px : ℚ) ≤ x1 ∧ y0 ≤ (py : ℚ) ∧ (py : ℚ) ≤ y1 then c
      else img.pix px py }

/-- `draw.rounded_rectangle(..., fill=c)` (no outline). -/
def fillRoundedRect (img : Image) (x0 y0 x1 y1 rad : ℚ) (c : Color) : Image :=
  { img with
    pix := fun px py =>
      if inRR x0 y0 x1 y1 rad px py then c else img.pix px py }

/-- The outline pass of `draw.rounded_rectangle(..., outline=c, width=w)`:
the ring between the rounded rectangle and its copy inset by `w`. -/
def strokeRoundedRect (img : Image) (x0 y0 x1 y1 rad w : ℚ) (c : Color) : Image :=
  { img with
    pix := fun px py =>
      if inRR x0 y0 x1 y1 rad px py ∧
          ¬ inRR (x0 + w) (y0 + w) (x1 - w) (y1 - w) (rad - w) px py then c
      else img.pix px py }

/-- `draw.rounded_rectangle` with a fill and an optional `(outline, width)`. -/
def roundedRect (img : Image) (x0 y0 x1 y1 rad : ℚ) (fill : Color)
    (outline : Option (Color × ℚ)) : Image :=
  match outline with
  | none => fillRoundedRect img x0 y0 x1 y1 rad fill
  | some oc => strokeRoundedRect (fillRoundedRect img x0 y0 x1 y1 rad fill)
      x0 y0 x1 y1 rad oc.2 oc.1

/-- The gradient colour of row `y` (lines 27-30 of the source):
`progress = y / size`, `r = int(50 + (140 - 50) * progress)`,
`g = int(130 + (90 - 130) * progress)`, `b = int(255 + (230 - 255) * progress)`,
alpha 255. -/
def gradColor (S y : ℕ) : Color :=
  let progress : ℚ := (y : ℚ) / S
  ⟨pyint (50 + ((140 : ℚ) - 50) * progress),
   pyint (130 + ((90 : ℚ) - 130) * progress),
   pyint (255 + ((230 : ℚ) - 255) * progress),
   255⟩

/-- The background gradient loop (lines 26-31): for each `y` in `range(size)`,
`draw.rectangle([0, y, size, y + 1], fill=...)`. -/
def gradientPass (S : ℕ) (img : Image) : Image :=
  (List.range S).foldl
    (fun (im : Image) (y : ℕ) =>
      fillRect im 0 (y : ℚ) (S : ℚ) ((y : ℚ) + 1) (gradColor S y)) img

/-- The rounded-corner mask value at a pixel (lines 34-37):
`mask_draw.rounded_rectangle([0, 0, size, size], corner_radius, fill=255)` on a
mask initialised to 0. -/
def maskVal (S : ℕ) (px py : ℕ) : ℕ :=
  if inRR 0 0 (S : ℚ) (S : ℚ) (cornerRadius S : ℚ) (px : ℚ) (py : ℚ) then 255 else 0

/-- `img.putalpha(mask)` (line 38): replace the alpha channel pixelwise. -/
def putalpha (img : Image) (m : ℕ → ℕ → ℕ) : Image :=
  { img with
    pix := fun px py =>
      let c := img.pix px py
      ⟨c.r, c.g, c.b, m px py⟩ }

/-- The image after the gradient, mask and `putalpha` (lines 19-38). -/
def maskedImage (S : ℕ) : Image :=
  putalpha (gradientPass S (newImage S)) (maskVal S)

/-- After drawing the clip fastener (lines 53-59). -/
def withClip (S : ℕ) : Image :=
  roundedRect (maskedImage S)
    (clipX S) (clipY S)
    ((clipX S : ℚ) + clipWidth S) ((clipY S : ℚ) + clipHeight S)
    (clipRadius S)
    ⟨220, 220, 220, 255⟩
    (some (clipOutlineColor, (clipOutlineWidth S : ℚ)))

/-- After drawing the clipboard body (lines 62-68). -/
def withBody (S : ℕ) : Image :=
  roundedRect (withClip S)
    (clipboardX S) (clipboardY S)
    ((clipboardX S : ℚ) + clipboardSize S) ((clipboardY S : ℚ) + clipboardSize S)
    (bodyRadius S)
    ⟨255, 255, 255, 250⟩
    (some (⟨210, 210, 210, 255⟩, (bodyOutlineWidth S : ℚ)))

/-- After drawing the first code line (lines 77-82). -/
def withLine1 (S : ℕ) : Image :=
  roundedRect (withBody S)
    (lineLeftX S) (lineYStart S)
    (lineRightX1 S) ((lineYStart S : ℚ) + lineWidth S)
    ((lineWidth S / 2 : ℕ) : ℚ)
    ⟨70, 120, 220, 255⟩
    none

/-- After drawing the second code line (lines 85-90). -/
def withLine2 (S : ℕ) : Image :=
  roundedRect (withLine1 S)
    (lineLeftX S) ((lineYStart S : ℚ) + lineSpacing S)
    (lineRightX2 S) ((lineYStart S : ℚ) + lineSpacing S + lineWidth S)
    ((lineWidth S / 2 : ℕ) : ℚ)
    ⟨90, 140, 240, 255⟩
    none

/-- After drawing the third code line (lines 93-98): `create_icon`'s result. -/
def withLine3 (S : ℕ) : Image :=
  roundedRect (withLine2 S)
    (lineLeftX S) ((lineYStart S : ℚ) + 2 * lineSpacing S)
    (lineRightX3 S) ((lineYStart S : ℚ) + 2 * lineSpacing S + lineWidth S)
    ((lineWidth S / 2 : ℕ) : ℚ)
    ⟨110, 160, 250, 255⟩
    none

/-- `create_icon(size)` (lines 16-100). -/
def render (S : ℕ) : Image := withLine3 S

/-- The fixed filename → size table `sizes` of `main()` (lines 108-119), in
insertion order (Python dicts preserve it). -/
def sizesTable : List (String × ℕ) :=
  [("icon_16x16.png", 16),
   ("icon_16x16@2x.png", 32),
   ("icon_32x32.png", 32),
   ("icon_32x32@2x.png", 64),
   ("icon_128x128.png", 128),
   ("icon_128x128@2x.png", 256),
   ("icon_256x256.png", 256),
   ("icon_256x256@2x.png", 512),
   ("icon_512x512.png", 512),
   ("icon_512x512@2x.png", 1024)]

/-- `output_dir = "QuickClip/Assets.xcassets/AppIcon.appiconset"` (line 105). -/
def outputDir : String := "QuickClip/Assets.xcassets/AppIcon.appiconset"

/-- `os.path.join(output_dir, filename)` for these relative components. -/
def joinPath (d f : String) : String := d ++ "/" ++ f

/-- The `(filename, image)` pairs produced by the loop of `main()`
(lines 123-126): one `create_icon(size)` per table entry. -/
def mainOutputs : List (String × Image) :=
  sizesTable.map (fun p => (p.1, render p.2))

/-- The file writes performed by `main()`: full path and content, in order.
PNG encoding is a fixed deterministic function of the pixel data, so file
content is identified with the rendered image. -/
def mainWrites : List (String × Image) :=
  sizesTable.map (fun p => (joinPath outputDir p.1, render p.2))

/-- A filesystem effect: `main()` can only write a file (`icon.save`) or —
hypothetically — create a directory; the trace below shows it never does the
latter. -/
inductive FsEffect where
  | write (path : String) (content : Image)
  | mkdir (path : String)

/-- The path an effect touches. -/
def FsEffect.path : FsEffect → String
  | .write p _ => p
  | .mkdir p => p

/-- Whether an effect is a file write. -/
def FsEffect.isWrite : FsEffect → Bool
  | .write _ _ => true
  | .mkdir _ => false

/-- The complete filesystem-effect trace of `main()` (lines 102-130): the ten
`icon.save(os.path.join(output_dir, filename), 'PNG')` calls, nothing else. -/
def mainEffects : List FsEffect :=
  sizesTable.map (fun p => .write (joinPath outputDir p.1) (render p.2))

/-- A filesystem: a map from path to file content (`none` = absent). -/
abbrev FS := String → Option Image

/-- Apply a list of writes to a filesystem, in order (later writes win). -/
def applyWrites : FS → List (String × Image) → FS
  | fs, [] => fs
  | fs, w :: ws => applyWrites (fun p => if p = w.1 then some w.2 else fs p) ws

/-- The effect of one run of `main()` on the filesystem. -/
def mainFS (fs : FS) : FS := applyWrites fs mainWrites

/-- The image `main()` writes under a given filename, if the name is in the
table. -/
def renderFor (n : String) : Option Image :=
  (sizesTable.find? (fun p => p.1 == n)).map (fun p => render p.2)

/-- One run of `main()` as observed at the top level of the script: the
console lines it printed before returning or raising, and the message of the
exception it raised, if any. -/
structure MainRun where
  printed : List String
  err : Option String

/-- The diagnostic the handler prints: `print(f"❌ 错误: {e}")` (line 136). -/
def errorLine (e : String) : String := "❌ 错误: " ++ e

/-- The fixed remediation hint (line 137). -/
def remediationHint : String := "\n请确保已安装 Pillow: pip3 install Pillow"

/-- The `if __name__ == "__main__"` block (lines 132-137): run `main()` once
inside a single try/except; on an exception print the diagnostic and the hint.
Result: the full console transcript and the uncaught exception, if any. -/
def topLevel (run : MainRun) : List String × Option String :=
  match run.err with
  | none => (run.printed, none)
  | some e => (run.printed ++ [errorLine e, remediationHint], none)

/-! ### Closed forms for the integer geometry

Each `int(x * frac)` definition equals a natural-number division; these
closed forms make the geometry accessible to `omega` and `norm_num`. -/

lemma pyint_mul_div (s a b : ℕ) : pyint ((s : ℚ) * ((a : ℚ) / (b : ℚ))) = s * a / b := by
  unfold pyint
  rw [show (s : ℚ) * ((a : ℚ) / (b : ℚ)) = ((s * a : ℕ) : ℚ) / ((b : ℕ) : ℚ) by
    push_cast; ring]
  exact Nat.floor_div_eq_div _ _

lemma clipboardSize_eq (S : ℕ) : clipboardSize S = S * 65 / 100 :=
  pyint_mul_div S 65 100

lemma clipboardY_eq (S : ℕ) : clipboardY S = S * 20 / 100 :=
  pyint_mul_div S 20 100

lemma clipWidth_eq (S : ℕ) : clipWidth S = clipboardSize S * 35 / 100 :=
  pyint_mul_div _ 35 100

lemma clipHeight_eq (S : ℕ) : clipHeight S = clipboardSize S * 12 / 100 :=
  pyint_mul_div _ 12 100

lemma clipY_eq (S : ℕ) : clipY S = clipboardY S - clipHeight S * 30 / 100 :=
  congrArg (fun t => clipboardY S - t) (pyint_mul_div (clipHeight S) 30 100)

lemma clipRadius_eq (S : ℕ) : clipRadius S = clipHeight S * 40 / 100 :=
  pyint_mul_div _ 40 100

lemma bodyRadius_eq (S : ℕ) : bodyRadius S = clipboardSize S * 10 / 100 :=
  pyint_mul_div _ 10 100

lemma linePadding_eq (S : ℕ) : linePadding S = clipboardSize S * 20 / 100 :=
  pyint_mul_div _ 20 100

lemma lineYStart_eq (S : ℕ) : lineYStart S = clipboardY S + clipboardSize S * 25 / 100 :=
  congrArg (fun t => clipboardY S + t) (pyint_mul_div (clipboardSize S) 25 100)

lemma lineSpacing_eq (S : ℕ) : lineSpacing S = clipboardSize S * 18 / 100 :=
  pyint_mul_div _ 18 100

lemma cornerRadius_eq (S : ℕ) : cornerRadius S = S * 18 / 100 :=
  pyint_mul_div S 18 100

lemma pyint_scale_mul (S a b : ℕ) :
    pyint (scaleQ S * ((a : ℚ) / (b : ℚ))) = S * a / (512 * b) := by
  unfold scaleQ
  rw [show (S : ℚ) / 512 * ((a : ℚ) / (b : ℚ)) = (S : ℚ) * ((a : ℚ) / ((512 * b : ℕ) : ℚ)) by
    push_cast; ring]
  exact pyint_mul_div S a (512 * b)

lemma clipOutlineWidth_eq (S : ℕ) : clipOutlineWidth S = max 1 (S * 15 / 5120) :=
  congrArg (fun t => max 1 t) (pyint_scale_mul S 15 10)

lemma pyint_scale_mul_nat (S a : ℕ) : pyint (scaleQ S * (a : ℚ)) = S * a / 512 := by
  unfold scaleQ pyint
  rw [show (S : ℚ) / 512 * (a : ℚ) = ((S * a : ℕ) : ℚ) / ((512 : ℕ) : ℚ) by
    push_cast; ring]
  exact Nat.floor_div_eq_div _ _

lemma bodyOutlineWidth_eq (S : ℕ) : bodyOutlineWidth S = max 2 (S * 3 / 512) :=
  congrArg (fun t => max 2 t) (pyint_scale_mul_nat S 3)

lemma lineWidth_eq (S : ℕ) : lineWidth S = max 2 (S * 5 / 512) :=
  congrArg (fun t => max 2 t) (pyint_scale_mul_nat S 5)

/-! ### Region-exclusion lemmas

A rounded rectangle whose top edge sits at `y0 ≥ 1` (and whose radius fits
the box) misses image row 0; one whose bottom edge sits above `py` misses
row `py`.  These drive the corner-transparency analysis. -/

lemma not_inRR_row0 (x0 y0 x1 y1 rad : ℚ) (px py : ℕ) (hpy : py = 0)
    (hy0 : 1 ≤ y0) (hrad : 0 ≤ rad) (h2r : y0 + 2 * rad ≤ y1) :
    ¬ inRR x0 y0 x1 y1 rad (px : ℚ) (py : ℚ) := by
  subst hpy
  unfold inRR
  push_cast
  rintro (⟨_, _, h3, _⟩ | ⟨_, _, h3, _⟩ | h | h | h | h)
  · linarith
  · linarith
  · nlinarith [sq_nonneg ((px : ℚ) - (x0 + rad))]
  · nlinarith [sq_nonneg ((px : ℚ) - (x1 - rad))]
  · nlinarith [sq_nonneg ((px : ℚ) - (x0 + rad))]
  · nlinarith [sq_nonneg ((px : ℚ) - (x1 - rad))]

lemma not_inRR_below (x0 y0 x1 y1 rad : ℚ) (px py : ℕ) (hrad : 0 ≤ rad)
    (h2r : y0 + 2 * rad ≤ y1) (hlt : y1 < (py : ℚ)) :
    ¬ inRR x0 y0 x1 y1 rad (px : ℚ) (py : ℚ) := by
  unfold inRR
  rintro (⟨_, _, _, h4⟩ | ⟨_, _, _, h4⟩ | h | h | h | h)
  · linarith
  · linarith
  · nlinarith [sq_nonneg ((px : ℚ) - (x0 + rad))]
  · nlinarith [sq_nonneg ((px : ℚ) - (x1 - rad))]
  · nlinarith [sq_nonneg ((px : ℚ) - (x0 + rad))]
  · nlinarith [sq_nonneg ((px : ℚ) - (x1 - rad))]

/-- A drawn rounded rectangle (with or without outline) leaves every pixel
outside its fill region unchanged; the outline ring is inside the fill. -/
lemma roundedRect_pix_of_not (img : Image) (x0 y0 x1 y1 rad : ℚ) (c : Color)
    (o : Option (Color × ℚ)) (px py : ℕ)
    (h : ¬ inRR x0 y0 x1 y1 rad (px : ℚ) (py : ℚ)) :
    (roundedRect img x0 y0 x1 y1 rad c o).pix px py = img.pix px py := by
  cases o with
  | none => simp [roundedRect, fillRoundedRect, h]
  | some oc => simp [roundedRect, strokeRoundedRect, fillRoundedRect, h]

/-- The alpha channel right after `putalpha` is the mask value. -/
lemma maskedImage_pix_a (S px py : ℕ) :
    ((maskedImage S).pix px py).a = maskVal S px py := rfl

/-- If a pixel lies outside all five glyph shapes, its final alpha is the
mask value. -/
lemma render_alpha_untouched (S px py : ℕ)
    (hclip : ¬ inRR (clipX S) (clipY S) ((clipX S : ℚ) + clipWidth S)
      ((clipY S : ℚ) + clipHeight S) (clipRadius S) (px : ℚ) (py : ℚ))
    (hbody : ¬ inRR (clipboardX S) (clipboardY S) ((clipboardX S : ℚ) + clipboardSize S)
      ((clipboardY S : ℚ) + clipboardSize S) (bodyRadius S) (px : ℚ) (py : ℚ))
    (hl1 : ¬ inRR (lineLeftX S) (lineYStart S) (lineRightX1 S)
      ((lineYStart S : ℚ) + lineWidth S) ((lineWidth S / 2 : ℕ) : ℚ) (px : ℚ) (py : ℚ))
    (hl2 : ¬ inRR (lineLeftX S) ((lineYStart S : ℚ) + lineSpacing S) (lineRightX2 S)
      ((lineYStart S : ℚ) + lineSpacing S + lineWidth S) ((lineWidth S / 2 : ℕ) : ℚ)
      (px : ℚ) (py : ℚ))
    (hl3 : ¬ inRR (lineLeftX S) ((lineYStart S : ℚ) + 2 * lineSpacing S) (lineRightX3 S)
      ((lineYStart S : ℚ) + 2 * lineSpacing S + lineWidth S) ((lineWidth S / 2 : ℕ) : ℚ)
      (px : ℚ) (py : ℚ)) :
    ((render S).pix px py).a = maskVal S px py := by
  unfold render withLine3 withLine2 withLine1 withBody withClip
  rw [roundedRect_pix_of_not (h := hl3), roundedRect_pix_of_not (h := hl2),
    roundedRect_pix_of_not (h := hl1), roundedRect_pix_of_not (h := hbody),
    roundedRect_pix_of_not (h := hclip)]
  exact maskedImage_pix_a S px py

/-! ### Geometry bounds for the glyph shapes -/

/-- For `S ≥ 6` every glyph shape starts below image row 0 and its corner
diameter fits its height. -/
lemma geom_row0 (S : ℕ) (h6 : 6 ≤ S) :
    1 ≤ clipY S ∧ 2 * clipRadius S ≤ clipHeight S ∧ 1 ≤ clipboardY S ∧
    2 * bodyRadius S ≤ clipboardSize S ∧ 1 ≤ lineYStart S ∧
    2 * (lineWidth S / 2) ≤ lineWidth S := by
  have h1 := clipY_eq S
  have h2 := clipboardY_eq S
  have h3 := clipHeight_eq S
  have h4 := clipboardSize_eq S
  have h5 := clipRadius_eq S
  have h6b := bodyRadius_eq S
  have h7 := lineYStart_eq S
  omega

/-- For `S ≥ 28` every glyph shape ends above image row `S - 1`. -/
lemma geom_bottom (S : ℕ) (h : 28 ≤ S) :
    clipY S + clipHeight S < S - 1 ∧ clipboardY S + clipboardSize S < S - 1 ∧
    lineYStart S + 2 * lineSpacing S + lineWidth S < S - 1 := by
  have h1 := clipY_eq S
  have h2 := clipboardY_eq S
  have h3 := clipHeight_eq S
  have h4 := clipboardSize_eq S
  have h5 := lineYStart_eq S
  have h6 := lineSpacing_eq S
  have h7 := lineWidth_eq S
  omega

/-- Bounds on the mask corner radius. -/
lemma cornerRadius_bounds (S : ℕ) (h6 : 6 ≤ S) :
    1 ≤ cornerRadius S ∧ 2 * cornerRadius S < S := by
  have h1 := cornerRadius_eq S
  omega

lemma cornerRadius_bounds_large (S : ℕ) (h : 28 ≤ S) :
    4 ≤ cornerRadius S ∧ 2 * cornerRadius S + 2 ≤ S := by
  have h1 := cornerRadius_eq S
  omega

/-! ### The mask at the four image corners -/

/-- Pixel `(0, 0)` is outside the mask whenever the corner radius is at
least 1. -/
lemma maskVal_corner00 (S : ℕ) (h6 : 6 ≤ S) : maskVal S 0 0 = 0 := by
  obtain ⟨hc1, hc2⟩ := cornerRadius_bounds S h6
  have hq1 : (1 : ℚ) ≤ (cornerRadius S : ℚ) := by exact_mod_cast hc1
  have hq2 : 2 * (cornerRadius S : ℚ) < (S : ℚ) := by exact_mod_cast hc2
  unfold maskVal
  rw [if_neg]
  intro hin
  unfold inRR at hin
  push_cast at hin
  set c : ℚ := (cornerRadius S : ℚ) with hc
  rcases hin with ⟨h1, _, _, _⟩ | ⟨_, _, h3, _⟩ | h | h | h | h
  · linarith
  · linarith
  · nlinarith
  · nlinarith [sq_nonneg ((S : ℚ) - c)]
  · nlinarith [sq_nonneg ((S : ℚ) - c)]
  · nlinarith [sq_nonneg ((S : ℚ) - c)]

/-- Pixel `(S-1, 0)` is outside the mask for `S ≥ 28`. -/
lemma maskVal_cornerTR (S : ℕ) (h : 28 ≤ S) : maskVal S (S - 1) 0 = 0 := by
  obtain ⟨hc1, hc2⟩ := cornerRadius_bounds_large S h
  have hq1 : (4 : ℚ) ≤ (cornerRadius S : ℚ) := by exact_mod_cast hc1
  have hq2 : 2 * (cornerRadius S : ℚ) + 2 ≤ (S : ℚ) := by exact_mod_cast hc2
  have hS1 : ((S - 1 : ℕ) : ℚ) = (S : ℚ) - 1 := by
    have : 1 ≤ S := by omega
    push_cast [this]
    ring
  unfold maskVal
  rw [if_neg]
  intro hin
  unfold inRR at hin
  rw [hS1] at hin
  push_cast at hin
  set c : ℚ := (cornerRadius S : ℚ) with hc
  rcases hin with ⟨h1, h2, _, _⟩ | ⟨_, _, h3, _⟩ | h | h | h | h
  · linarith
  · linarith
  · nlinarith [sq_nonneg ((S : ℚ) - 1 - c)]
  · nlinarith [sq_nonneg ((S : ℚ) - 1 - (S - c))]
  · nlinarith [sq_nonneg ((S : ℚ) - 1 - c), sq_nonneg ((S : ℚ) - c)]
  · nlinarith [sq_nonneg ((S : ℚ) - 1 - (S - c)), sq_nonneg ((S : ℚ) - c)]

/-- Pixel `(0, S-1)` is outside the mask for `S ≥ 28`. -/
lemma maskVal_cornerBL (S : ℕ) (h : 28 ≤ S) : maskVal S 0 (S - 1) = 0 := by
  obtain ⟨hc1, hc2⟩ := cornerRadius_bounds_large S h
  have hq1 : (4 : ℚ) ≤ (cornerRadius S : ℚ) := by exact_mod_cast hc1
  have hq2 : 2 * (cornerRadius S : ℚ) + 2 ≤ (S : ℚ) := by exact_mod_cast hc2
  have hS1 : ((S - 1 : ℕ) : ℚ) = (S : ℚ) - 1 := by
    have : 1 ≤ S := by omega
    push_cast [this]
    ring
  unfold maskVal
  rw [if_neg]
  intro hin
  unfold inRR at hin
  rw [hS1] at hin
  push_cast at hin
  set c : ℚ := (cornerRadius S : ℚ) with hc
  rcases hin with ⟨h1, _, _, _⟩ | ⟨_, _, _, h4⟩ | h | h | h | h
  · linarith
  · linarith
  · nlinarith [sq_nonneg ((S : ℚ) - 1 - c)]
  · nlinarith [sq_nonneg ((S : ℚ) - 1 - c), sq_nonneg ((S : ℚ) - c)]
  · nlinarith [sq_nonneg ((S : ℚ) - 1 - (S - c))]
  · nlinarith [sq_nonneg ((S : ℚ) - 1 - (S - c)), sq_nonneg ((S : ℚ) - c)]

/-- Pixel `(S-1, S-1)` is outside the mask for `S ≥ 28`. -/
lemma maskVal_cornerBR (S : ℕ) (h : 28 ≤ S) : maskVal S (S - 1) (S - 1) = 0 := by
  obtain ⟨hc1, hc2⟩ := cornerRadius_bounds_large S h
  have hq1 : (4 : ℚ) ≤ (cornerRadius S : ℚ) := by exact_mod_cast hc1
  have hq2 : 2 * (cornerRadius S : ℚ) + 2 ≤ (S : ℚ) := by exact_mod_cast hc2
  have hS1 : ((S - 1 : ℕ) : ℚ) = (S : ℚ) - 1 := by
    have : 1 ≤ S := by omega
    push_cast [this]
    ring
  unfold maskVal
  rw [if_neg]
  intro hin
  unfold inRR at hin
  rw [hS1] at hin
  set c : ℚ := (cornerRadius S : ℚ) with hc
  rcases hin with ⟨h1, _, _, _⟩ | ⟨_, _, h3, _⟩ | h | h | h | h
  · linarith
  · linarith
  · nlinarith [sq_nonneg ((S : ℚ) - 1 - c)]
  · nlinarith [sq_nonneg ((S : ℚ) - 1 - c), sq_nonneg ((S : ℚ) - 1 - (S - c))]
  · nlinarith [sq_nonneg ((S : ℚ) - 1 - c), sq_nonneg ((S : ℚ) - 1 - (S - c))]
  · nlinarith [sq_nonneg (c - 4)]

/-- No glyph shape touches image row 0, so alpha there is the mask value. -/
lemma render_alpha_row0 (S : ℕ) (h6 : 6 ≤ S) (px : ℕ) :
    ((render S).pix px 0).a = maskVal S px 0 := by
  obtain ⟨g1, g2, g3, g4, g5, g6⟩ := geom_row0 S h6
  have hq2 : (2 : ℚ) * (clipRadius S : ℚ) ≤ (clipHeight S : ℚ) := by exact_mod_cast g2
  have hq4 : (2 : ℚ) * (bodyRadius S : ℚ) ≤ (clipboardSize S : ℚ) := by exact_mod_cast g4
  have hq6 : (2 : ℚ) * ((lineWidth S / 2 : ℕ) : ℚ) ≤ (lineWidth S : ℚ) := by exact_mod_cast g6
  apply render_alpha_untouched
  · exact not_inRR_row0 _ _ _ _ _ px 0 rfl (by exact_mod_cast g1) (Nat.cast_nonneg _)
      (by linarith)
  · exact not_inRR_row0 _ _ _ _ _ px 0 rfl (by exact_mod_cast g3) (Nat.cast_nonneg _)
      (by linarith)
  · exact not_inRR_row0 _ _ _ _ _ px 0 rfl (by exact_mod_cast g5) (Nat.cast_nonneg _)
      (by linarith)
  · exact not_inRR_row0 _ _ _ _ _ px 0 rfl
      (by have : (0 : ℚ) ≤ (lineSpacing S : ℚ) := Nat.cast_nonneg _
          have hg5 : (1 : ℚ) ≤ (lineYStart S : ℚ) := by exact_mod_cast g5
          linarith)
      (Nat.cast_nonneg _) (by linarith)
  · exact not_inRR_row0 _ _ _ _ _ px 0 rfl
      (by have : (0 : ℚ) ≤ (lineSpacing S : ℚ) := Nat.cast_nonneg _
          have hg5 : (1 : ℚ) ≤ (lineYStart S : ℚ) := by exact_mod_cast g5
          linarith)
      (Nat.cast_nonneg _) (by linarith)

/-- For `S ≥ 28` no glyph shape touches image row `S - 1`, so alpha there is
the mask value. -/
lemma render_alpha_rowBottom (S : ℕ) (h : 28 ≤ S) (px : ℕ) :
    ((render S).pix px (S - 1)).a = maskVal S px (S - 1) := by
  obtain ⟨g1, g2, g3, g4, g5, g6⟩ := geom_row0 S (by omega)
  obtain ⟨b1, b2, b3⟩ := geom_bottom S h
  have hq2 : (2 : ℚ) * (clipRadius S : ℚ) ≤ (clipHeight S : ℚ) := by exact_mod_cast g2
  have hq4 : (2 : ℚ) * (bodyRadius S : ℚ) ≤ (clipboardSize S : ℚ) := by exact_mod_cast g4
  have hq6 : (2 : ℚ) * ((lineWidth S / 2 : ℕ) : ℚ) ≤ (lineWidth S : ℚ) := by exact_mod_cast g6
  apply render_alpha_untouched
  · exact not_inRR_below _ _ _ _ _ px (S - 1) (Nat.cast_nonneg _) (by linarith)
      (by exact_mod_cast b1)
  · exact not_inRR_below _ _ _ _ _ px (S - 1) (Nat.cast_nonneg _) (by linarith)
      (by exact_mod_cast b2)
  · exact not_inRR_below _ _ _ _ _ px (S - 1) (Nat.cast_nonneg _) (by linarith)
      (by exact_mod_cast (by omega : lineYStart S + lineWidth S < S - 1))
  · exact not_inRR_below _ _ _ _ _ px (S - 1) (Nat.cast_nonneg _) (by linarith)
      (by exact_mod_cast (by omega : lineYStart S + lineSpacing S + lineWidth S < S - 1))
  · exact not_inRR_below _ _ _ _ _ px (S - 1) (Nat.cast_nonneg _) (by linarith)
      (by exact_mod_cast b3)

/-! ### The gradient loop, row by row -/

/-- After the first `n` iterations of the gradient loop, a pixel with
`px ≤ S` holds the colour of iteration `min py (n-1)` if some iteration
reached its row, and is untouched otherwise (iteration `y` covers rows `y`
and `y + 1`, so the later iteration wins). -/
lemma gradientPass_aux (S : ℕ) (b : Image) (n px py : ℕ) (hpx : px ≤ S) :
    (((List.range n).foldl (fun (im : Image) (y : ℕ) =>
        fillRect im 0 (y : ℚ) (S : ℚ) ((y : ℚ) + 1) (gradColor S y)) b).pix px py) =
    if 0 < n ∧ py ≤ n then gradColor S (min py (n - 1)) else b.pix px py := by
  induction n with
  | zero => simp
  | succ n ih =>
    rw [List.range_succ, List.foldl_append, List.foldl_cons, List.foldl_nil]
    show (if (0 : ℚ) ≤ (px : ℚ) ∧ (px : ℚ) ≤ (S : ℚ) ∧ (n : ℚ) ≤ (py : ℚ) ∧
        (py : ℚ) ≤ (n : ℚ) + 1 then gradColor S n else _) = _
    by_cases hc : n ≤ py ∧ py ≤ n + 1
    · rw [if_pos ⟨Nat.cast_nonneg px, by exact_mod_cast hpx, by exact_mod_cast hc.1, by
        exact_mod_cast hc.2⟩]
      rw [if_pos ⟨by omega, by omega⟩]
      congr 1
      omega
    · rw [if_neg (by
        rintro ⟨-, -, h3, h4⟩
        exact hc ⟨by exact_mod_cast h3, by
          have h5 : (py : ℚ) ≤ ((n + 1 : ℕ) : ℚ) := by push_cast; linarith
          exact_mod_cast h5⟩)]
      rcases Nat.lt_or_ge py n with hlt | hge
      · rw [ih, if_pos ⟨by omega, by omega⟩, if_pos ⟨by omega, by omega⟩]
        congr 1
        omega
      · have hgt : n + 1 < py := by omega
        rw [ih, if_neg (by omega), if_neg (by omega)]

/-- Inside the image, the finished gradient loop leaves row `py` with exactly
the colour computed from `progress = py / S`. -/
lemma gradientPass_pix (S : ℕ) (img : Image) (px py : ℕ) (hpx : px ≤ S) (hpy : py < S) :
    (gradientPass S img).pix px py = gradColor S py := by
  unfold gradientPass
  rw [gradientPass_aux S img S px py hpx, if_pos ⟨by omega, by omega⟩]
  congr 1
  omega

/-! ### Filesystem write lemmas -/

lemma applyWrites_not_mem (ws : List (String × Image)) (fs : FS) (p : String)
    (hp : p ∉ ws.map Prod.fst) : applyWrites fs ws p = fs p := by
  induction ws generalizing fs with
  | nil => rfl
  | cons w ws ih =>
    simp only [List.map_cons, List.mem_cons, not_or] at hp
    simp only [applyWrites]
    rw [ih _ hp.2]
    simp [hp.1]

lemma applyWrites_mem_congr (ws : List (String × Image)) (fs fs2 : FS) (p : String)
    (hp : p ∈ ws.map Prod.fst) : applyWrites fs ws p = applyWrites fs2 ws p := by
  induction ws generalizing fs fs2 with
  | nil => simp at hp
  | cons w ws ih =>
    simp only [applyWrites]
    by_cases h2 : p ∈ ws.map Prod.fst
    · exact ih _ _ h2
    · have hpw : p = w.1 := by
        simp only [List.map_cons, List.mem_cons] at hp
        tauto
      rw [applyWrites_not_mem _ _ _ h2, applyWrites_not_mem _ _ _ h2]
      simp [hpw]

/-! ### Image dimensions through the pipeline -/

lemma gradientPass_width (S : ℕ) (img : Image) : (gradientPass S img).width = img.width := by
  unfold gradientPass
  generalize List.range S = l
  induction l generalizing img with
  | nil => rfl
  | cons y l ih =>
    rw [List.foldl_cons]
    exact ih _

lemma gradientPass_height (S : ℕ) (img : Image) : (gradientPass S img).height = img.height := by
  unfold gradientPass
  generalize List.range S = l
  induction l generalizing img with
  | nil => rfl
  | cons y l ih =>
    rw [List.foldl_cons]
    exact ih _

lemma roundedRect_width (img : Image) (x0 y0 x1 y1 rad : ℚ) (c : Color)
    (o : Option (Color × ℚ)) : (roundedRect img x0 y0 x1 y1 rad c o).width = img.width := by
  cases o <;> rfl

lemma roundedRect_height (img : Image) (x0 y0 x1 y1 rad : ℚ) (c : Color)
    (o : Option (Color × ℚ)) : (roundedRect img x0 y0 x1 y1 rad c o).height = img.height := by
  cases o <;> rfl

/-- `create_icon(S)` returns an image of width exactly `S`. -/
lemma render_width (S : ℕ) : (render S).width = S := by
  unfold render withLine3 withLine2 withLine1 withBody withClip
  rw [roundedRect_width, roundedRect_width, roundedRect_width, roundedRect_width,
    roundedRect_width]
  show (gradientPass S (newImage S)).width = S
  rw [gradientPass_width]
  rfl

/-- `create_icon(S)` returns an image of height exactly `S`. -/
lemma render_height (S : ℕ) : (render S).height = S := by
  unfold render withLine3 withLine2 withLine1 withBody withClip
  rw [roundedRect_height, roundedRect_height, roundedRect_height, roundedRect_height,
    roundedRect_height]
  show (gradientPass S (newImage S)).height = S
  rw [gradientPass_height]
  rfl

/-! ### Specification-side comparison definitions -/

/-- The clip outline width as the specification words it:
`max(1, round(1.5 × scale))` with rounding to the nearest integer. -/
def specClipOutlineWidth (S : ℕ) : ℕ := max 1 (round ((15 / 10 : ℚ) * scaleQ S)).toNat

/-- The strict per-row gradient fill described by the refinement claim:
row `py` holds exactly the colour computed from `progress = py / S`. -/
def gradStrictRowFill (S : ℕ) (px : ℕ) (py : ℕ) : Color := gradColor S py

/-- Red channel of the gradient colour computed for a row. -/
def redAt (S y : ℕ) : ℕ := (gradColor S y).r

/-- Blue channel of the gradient colour computed for a row. -/
def blueAt (S y : ℕ) : ℕ := (gradColor S y).b

/-- Monotonicity of Python `int` on nonnegative values. -/
lemma pyint_mono {a b : ℚ} (h : a ≤ b) : pyint a ≤ pyint b :=
  Nat.floor_le_floor h

/-! ## Claims -/

/-- C1, counterexample: at size 512 the claim fails.  `clipboard_size` is 332
and `line_padding = int(0.20 × 332) = 66`, but line 2's right inset is
`2 × 66 = 132`, not `0.20 × 332 = 66.4`, and line 3's right inset is
`2.5 × 66 = 165`, not `0.25 × 332 = 83`. -/
theorem c1_insets_counterexample :
    lineRightInset2 512 ≠ (20 / 100 : ℚ) * (clipboardSize 512 : ℚ) ∧
    lineRightInset3 512 ≠ (25 / 100 : ℚ) * (clipboardSize 512 : ℚ) := by
  have h1 : clipboardSize 512 = 332 := by rw [clipboardSize_eq]
  have h2 : linePadding 512 = 66 := by rw [linePadding_eq, h1]
  constructor
  · unfold lineRightInset2 lineRightX2
    rw [h1, h2]
    norm_num
  · unfold lineRightInset3 lineRightX3
    rw [h1, h2]
    norm_num

/-- C1 (amended): for every positive size, all three code lines have left
inset `line_padding = int(0.20 × clipboard_size)`; the right insets are
`line_padding` for line 1, `2 × line_padding` for line 2, and
`2.5 × line_padding` for line 3 (0.5 × line_padding more than line 2). -/
theorem c1_line_insets_amended (S : ℕ) (hS : 0 < S) :
    lineLeftInset S = (linePadding S : ℚ) ∧
    lineRightInset1 S = (linePadding S : ℚ) ∧
    lineRightInset2 S = 2 * (linePadding S : ℚ) ∧
    lineRightInset3 S = (25 / 10 : ℚ) * (linePadding S : ℚ) := by
  unfold lineLeftInset lineLeftX lineRightInset1 lineRightInset2 lineRightInset3
    lineRightX1 lineRightX2 lineRightX3
  exact ⟨by ring, by ring, by ring, by ring⟩

theorem c1_line_insets_witness :
    0 < 512 ∧ lineRightInset2 512 = 2 * (linePadding 512 : ℚ) :=
  ⟨by decide, (c1_line_insets_amended 512 (by decide)).2.2.1⟩

/-- C2, counterexample: the code truncates (`int`) instead of rounding, so at
the declared size 512 the clip outline width is `max(1, int(1.5)) = 1`, not
the claimed `max(1, round(1.5)) = 2`. -/
theorem c2_outline_width_counterexample :
    clipOutlineWidth 512 ≠ specClipOutlineWidth 512 := by
  have h1 : clipOutlineWidth 512 = 1 := by
    rw [clipOutlineWidth_eq]
    decide
  have h2 : specClipOutlineWidth 512 = 2 := by
    unfold specClipOutlineWidth
    rw [show (15 / 10 : ℚ) * scaleQ 512 = 3 / 2 by unfold scaleQ; norm_num]
    rw [round_eq]
    rw [show (3 / 2 + 1 / 2 : ℚ) = ((2 : ℕ) : ℚ) by norm_num]
    rw [Int.floor_natCast]
    rfl
  rw [h1, h2]
  decide

/-- C2 (amended): the clip fastener is outlined in gray (180,180,180) with
stroke width `max(1, int(1.5 × scale))` where `int` truncates — equivalently
`max(1, 15·S / 5120)`; in particular at S = 512 the width is 1, not 2. -/
theorem c2_clip_outline_amended (S : ℕ) :
    clipOutlineWidth S = max 1 (S * 15 / 5120) ∧
    clipOutlineColor = ⟨180, 180, 180, 255⟩ :=
  ⟨clipOutlineWidth_eq S, rfl⟩

theorem c2_clip_outline_witness :
    clipOutlineWidth 512 = max 1 (512 * 15 / 5120) ∧
    clipOutlineColor = ⟨180, 180, 180, 255⟩ :=
  c2_clip_outline_amended 512

/-- C3: `generate_all()` writes exactly the ten files of the fixed table, in
order, with pairwise-distinct names, and each written image is a square
raster whose width and height equal the size declared for its filename. -/
theorem c3_generate_all_files :
    mainOutputs.map (fun q => (q.1, q.2.width, q.2.height)) =
      [("icon_16x16.png", 16, 16), ("icon_16x16@2x.png", 32, 32),
       ("icon_32x32.png", 32, 32), ("icon_32x32@2x.png", 64, 64),
       ("icon_128x128.png", 128, 128), ("icon_128x128@2x.png", 256, 256),
       ("icon_256x256.png", 256, 256), ("icon_256x256@2x.png", 512, 512),
       ("icon_512x512.png", 512, 512), ("icon_512x512@2x.png", 1024, 1024)] ∧
    (mainOutputs.map Prod.fst).Nodup := by
  constructor
  · simp [mainOutputs, sizesTable, render_width, render_height]
  · have hnames : mainOutputs.map Prod.fst = sizesTable.map Prod.fst := by
      simp [mainOutputs]
    rw [hnames]
    decide

/-- C4, counterexample: because the mask rectangle is `[0, 0, size, size]` —
one past the last pixel row and column — the bottom-right corner arc is
centred at `(S - r, S - r)`; at the declared size 16 (corner radius 2) the
bottom-right corner pixel (15, 15) lies strictly inside that arc, so its
alpha is 255, not the claimed 0. -/
theorem c4_corner_counterexample : ((render 16).pix 15 15).a = 255 := by
  have e1 : clipboardSize 16 = 10 := by rw [clipboardSize_eq]
  have e2 : clipboardY 16 = 3 := by rw [clipboardY_eq]
  have e3 : clipHeight 16 = 1 := by rw [clipHeight_eq, e1]
  have e4 : clipY 16 = 3 := by rw [clipY_eq, e2, e3]
  have e5 : clipRadius 16 = 0 := by rw [clipRadius_eq, e3]
  have e6 : bodyRadius 16 = 1 := by rw [bodyRadius_eq, e1]
  have e9 : lineYStart 16 = 5 := by rw [lineYStart_eq, e2, e1]
  have e10 : lineSpacing 16 = 1 := by rw [lineSpacing_eq, e1]
  have e11 : lineWidth 16 = 2 := by
    rw [lineWidth_eq]
    decide
  have hclip : ¬ inRR (clipX 16 : ℚ) (clipY 16 : ℚ)
      ((clipX 16 : ℚ) + (clipWidth 16 : ℚ)) ((clipY 16 : ℚ) + (clipHeight 16 : ℚ))
      (clipRadius 16 : ℚ) ((15 : ℕ) : ℚ) ((15 : ℕ) : ℚ) := by
    apply not_inRR_below _ _ _ _ _ _ _ (Nat.cast_nonneg _)
    · rw [e4, e3, e5]
      norm_num
    · rw [e4, e3]
      norm_num
  have hbody : ¬ inRR (clipboardX 16 : ℚ) (clipboardY 16 : ℚ)
      ((clipboardX 16 : ℚ) + (clipboardSize 16 : ℚ))
      ((clipboardY 16 : ℚ) + (clipboardSize 16 : ℚ))
      (bodyRadius 16 : ℚ) ((15 : ℕ) : ℚ) ((15 : ℕ) : ℚ) := by
    apply not_inRR_below _ _ _ _ _ _ _ (Nat.cast_nonneg _)
    · rw [e2, e6, e1]
      norm_num
    · rw [e2, e1]
      norm_num
  have hl1 : ¬ inRR (lineLeftX 16) (lineYStart 16 : ℚ) (lineRightX1 16)
      ((lineYStart 16 : ℚ) + (lineWidth 16 : ℚ)) ((lineWidth 16 / 2 : ℕ) : ℚ)
      ((15 : ℕ) : ℚ) ((15 : ℕ) : ℚ) := by
    apply not_inRR_below _ _ _ _ _ _ _ (Nat.cast_nonneg _)
    · rw [e9, e11]
      norm_num
    · rw [e9, e11]
      norm_num
  have hl2 : ¬ inRR (lineLeftX 16) ((lineYStart 16 : ℚ) + (lineSpacing 16 : ℚ))
      (lineRightX2 16) ((lineYStart 16 : ℚ) + (lineSpacing 16 : ℚ) + (lineWidth 16 : ℚ))
      ((lineWidth 16 / 2 : ℕ) : ℚ) ((15 : ℕ) : ℚ) ((15 : ℕ) : ℚ) := by
    apply not_inRR_below _ _ _ _ _ _ _ (Nat.cast_nonneg _)
    · rw [e9, e10, e11]
      norm_num
    · rw [e9, e10, e11]
      norm_num
  have hl3 : ¬ inRR (lineLeftX 16) ((lineYStart 16 : ℚ) + 2 * (lineSpacing 16 : ℚ))
      (lineRightX3 16)
      ((lineYStart 16 : ℚ) + 2 * (lineSpacing 16 : ℚ) + (lineWidth 16 : ℚ))
      ((lineWidth 16 / 2 : ℕ) : ℚ) ((15 : ℕ) : ℚ) ((15 : ℕ) : ℚ) := by
    apply not_inRR_below _ _ _ _ _ _ _ (Nat.cast_nonneg _)
    · rw [e9, e10, e11]
      norm_num
    · rw [e9, e10, e11]
      norm_num
  rw [render_alpha_untouched 16 15 15 hclip hbody hl1 hl2 hl3]
  have hcr : cornerRadius 16 = 2 := by rw [cornerRadius_eq]
  have hmem : inRR 0 0 ((16 : ℕ) : ℚ) ((16 : ℕ) : ℚ) (cornerRadius 16 : ℚ)
      ((15 : ℕ) : ℚ) ((15 : ℕ) : ℚ) := by
    unfold inRR
    refine Or.inr (Or.inr (Or.inr (Or.inr (Or.inr ?_))))
    rw [hcr]
    push_cast
    norm_num
  unfold maskVal
  rw [if_pos hmem]

/-- C4 (amended): for every size `S ≥ 6` the top-left corner pixel `(0, 0)`
of `create_icon(S)` has alpha exactly 0, and once the corner radius
`int(0.18 × S)` reaches 5 pixels (`S ≥ 28`) all four corner pixels have
alpha 0; for smaller sizes the right and bottom corner pixels can be opaque
because the mask rectangle `[0, 0, size, size]` extends one pixel past the
canvas (e.g. alpha 255 at pixel (15, 15) of the size-16 icon). -/
theorem c4_corner_alpha_amended (S : ℕ) (h6 : 6 ≤ S) :
    ((render S).pix 0 0).a = 0 ∧
    (28 ≤ S →
      ((render S).pix (S - 1) 0).a = 0 ∧ ((render S).pix 0 (S - 1)).a = 0 ∧
        ((render S).pix (S - 1) (S - 1)).a = 0) := by
  refine ⟨?_, fun h28 => ⟨?_, ?_, ?_⟩⟩
  · rw [render_alpha_row0 S h6 0]
    exact maskVal_corner00 S h6
  · rw [render_alpha_row0 S h6 (S - 1)]
    exact maskVal_cornerTR S h28
  · rw [render_alpha_rowBottom S h28 0]
    exact maskVal_cornerBL S h28
  · rw [render_alpha_rowBottom S h28 (S - 1)]
    exact maskVal_cornerBR S h28

theorem c4_corner_alpha_witness :
    6 ≤ 512 ∧ 28 ≤ 512 ∧ ((render 512).pix 0 0).a = 0 ∧
      ((render 512).pix (512 - 1) (512 - 1)).a = 0 :=
  ⟨by norm_num, by norm_num, (c4_corner_alpha_amended 512 (by norm_num)).1,
   ((c4_corner_alpha_amended 512 (by norm_num)).2 (by norm_num)).2.2⟩

/-- C5: the background gradient is monotone top-to-bottom — for rows
`y1 < y2` of a positive-size image, the red channel does not decrease and the
blue channel does not increase. -/
theorem c5_gradient_monotone (S y1 y2 : ℕ) (hS : 0 < S) (h12 : y1 < y2)
    (h2S : y2 < S) : redAt S y1 ≤ redAt S y2 ∧ blueAt S y2 ≤ blueAt S y1 := by
  have hS' : (0 : ℚ) < (S : ℚ) := by exact_mod_cast hS
  have hy : (y1 : ℚ) ≤ (y2 : ℚ) := by exact_mod_cast h12.le
  have hp : (y1 : ℚ) / S ≤ (y2 : ℚ) / S := by gcongr
  constructor
  · show pyint (50 + ((140 : ℚ) - 50) * ((y1 : ℚ) / S)) ≤
      pyint (50 + ((140 : ℚ) - 50) * ((y2 : ℚ) / S))
    exact pyint_mono (by linarith)
  · show pyint (255 + ((230 : ℚ) - 255) * ((y2 : ℚ) / S)) ≤
      pyint (255 + ((230 : ℚ) - 255) * ((y1 : ℚ) / S))
    exact pyint_mono (by linarith)

theorem c5_gradient_monotone_witness :
    0 < 4 ∧ 1 < 2 ∧ 2 < 4 ∧
      (redAt 4 1 ≤ redAt 4 2 ∧ blueAt 4 2 ≤ blueAt 4 1) :=
  ⟨by decide, by decide, by decide,
   c5_gradient_monotone 4 1 2 (by decide) (by decide) (by decide)⟩

/-- C6: `generate_all()` is deterministic and idempotent — applying the run's
filesystem effect twice yields the same filesystem as applying it once, since
every written content is a pure function of the fixed table alone. -/
theorem c6_generate_all_idempotent (fs : FS) : mainFS (mainFS fs) = mainFS fs := by
  funext p
  by_cases hp : p ∈ mainWrites.map Prod.fst
  · exact applyWrites_mem_congr _ _ _ _ hp
  · unfold mainFS
    rw [applyWrites_not_mem _ _ _ hp]

theorem c6_generate_all_idempotent_witness :
    mainFS (mainFS (fun _ => none)) = mainFS (fun _ => none) :=
  c6_generate_all_idempotent _

/-- C7: whatever `main()` prints and whether or not it raises, the top-level
handler swallows the exception (the script never re-raises), and on failure
the transcript is exactly the prior output followed by the diagnostic line
and the fixed Pillow-installation hint. -/
theorem c7_top_level_catch (run : MainRun) :
    (topLevel run).2 = none ∧
    (topLevel run).1 = (match run.err with
      | none => run.printed
      | some e => run.printed ++ [errorLine e, remediationHint]) := by
  obtain ⟨pr, er⟩ := run
  cases er <;> simp [topLevel]

theorem c7_top_level_catch_witness :
    (topLevel ⟨["start"], some "boom"⟩).2 = none ∧
    (topLevel ⟨["start"], some "boom"⟩).1 =
      ["start", errorLine "boom", remediationHint] :=
  c7_top_level_catch ⟨["start"], some "boom"⟩

/-- C8: the only filesystem effects of `generate_all()` are the ten file
writes into the fixed relative icon-catalog directory; no directory-creation
operation is ever performed. -/
theorem c8_effects_only_writes :
    (mainEffects.all FsEffect.isWrite) = true ∧
    mainEffects.map FsEffect.path =
      ["QuickClip/Assets.xcassets/AppIcon.appiconset/icon_16x16.png",
       "QuickClip/Assets.xcassets/AppIcon.appiconset/icon_16x16@2x.png",
       "QuickClip/Assets.xcassets/AppIcon.appiconset/icon_32x32.png",
       "QuickClip/Assets.xcassets/AppIcon.appiconset/icon_32x32@2x.png",
       "QuickClip/Assets.xcassets/AppIcon.appiconset/icon_128x128.png",
       "QuickClip/Assets.xcassets/AppIcon.appiconset/icon_128x128@2x.png",
       "QuickClip/Assets.xcassets/AppIcon.appiconset/icon_256x256.png",
       "QuickClip/Assets.xcassets/AppIcon.appiconset/icon_256x256@2x.png",
       "QuickClip/Assets.xcassets/AppIcon.appiconset/icon_512x512.png",
       "QuickClip/Assets.xcassets/AppIcon.appiconset/icon_512x512@2x.png"] := by
  constructor
  · rfl
  · rfl

/-- C9: the gradient loop — whose iteration `y` fills the inclusive
rectangle `[0, y, size, y+1]`, spilling one row down and one pixel right —
leaves the image identical to a strict per-row fill, because each
iteration's spill into row `y+1` is overwritten by the next iteration. -/
theorem c9_gradient_loop_refinement (S : ℕ) (hS : 0 < S) (img : Image)
    (px py : ℕ) (hpx : px < S) (hpy : py < S) :
    (gradientPass S img).pix px py = gradStrictRowFill S px py :=
  gradientPass_pix S img px py (le_of_lt hpx) hpy

theorem c9_gradient_loop_refinement_witness :
    0 < 3 ∧ 1 < 3 ∧ 2 < 3 ∧
      (gradientPass 3 (newImage 3)).pix 1 2 = gradStrictRowFill 3 1 2 :=
  ⟨by decide, by decide, by decide,
   c9_gradient_loop_refinement 3 (by decide) (newImage 3) 1 2 (by decide) (by decide)⟩

/-- C10: the table maps ten distinct filenames to sizes in which 32, 256 and
512 each occur twice, and the three filename pairs sharing a declared size
receive pixel-identical images, since `create_icon` depends only on size. -/
theorem c10_duplicate_sizes :
    (sizesTable.map Prod.fst).Nodup ∧
    (sizesTable.map Prod.snd).count 32 = 2 ∧
    (sizesTable.map Prod.snd).count 256 = 2 ∧
    (sizesTable.map Prod.snd).count 512 = 2 ∧
    renderFor "icon_16x16@2x.png" = renderFor "icon_32x32.png" ∧
    renderFor "icon_128x128@2x.png" = renderFor "icon_256x256.png" ∧
    renderFor "icon_256x256@2x.png" = renderFor "icon_512x512.png" :=
  ⟨by decide, by decide, by decide, by decide, rfl, rfl, rfl⟩

end QuickClip
